import Mathlib

/-!
Verification of the paired-end FASTQ filterer (`src/main.rs`).

The program walks two gzip-decompressed FASTQ streams in lockstep, reads one
4-line record from each per iteration, evaluates a configurable chain of
boolean rules on the pair, routes the pair's raw lines to either the kept or
the filtered sinks, counts checked/removed/remaining pairs, and finally
renders an optional stats report.

Shallow embedding conventions:
* a Rust `String` is a `List Char` (`Line`); `chars().count()` is `List.length`;
* an input stream is the list of strings successively produced by
  `BufRead::read_line`: each element is one line *including* its trailing
  newline character (`read_line` keeps the delimiter; only the final line of a
  file may lack it); a `read_line` call at end of stream produces the empty
  string, which is the only way an empty element arises;
* `HashSet<String>` membership is `List.contains` on a list of the inserted
  elements (duplicates are irrelevant to membership);
* panics (`unwrap` on a malformed header, `expect` on a failed stats write)
  are explicit result constructors;
* file I/O success/failure for the stats report is an explicit boolean oracle.
-/

/-- The contents of one Rust `String` buffer filled by `BufRead::read_line`:
a line including its trailing newline when present.  End of stream yields `[]`. -/
abbrev Line : Type := List Char

/-- One `read_line` call on a stream of remaining lines: pops the next line,
or produces the empty string at end of stream (modelling `Ok(0)` at EOF). -/
def read_line : List Line → Line × List Line
  | [] => ([], [])
  | l :: ls => (l, ls)

/-- Rust `str::split(c)` for a one-character pattern: splits at every
occurrence of `c`, keeping empty pieces, always producing at least one piece. -/
def splitOnChar (c : Char) : Line → List Line
  | [] => [[]]
  | x :: xs =>
    if x = c then [] :: splitOnChar c xs
    else
      match splitOnChar c xs with
      | [] => [[x]]
      | y :: ys => (x :: y) :: ys

/-- `FastqEntry` (`main.rs` lines 55-62): the four raw lines of a FASTQ record
plus the two derived identifier fields. -/
structure FastqEntry where
  id : Line
  seq : Line
  strand : Line
  qual : Line
  tile_id : Line
  read_id : Line
deriving DecidableEq

/-- Header parsing of `FastqHandler::read_entry` (lines 128-135):
`id.find(" ").unwrap()` then `read_id = &id[0..space]`, then
`read_id.split(":").nth(4).unwrap()` as `tile_id`.  `none` is the case in
which one of the two `unwrap`s panics: no space in the header, or fewer than
five colon-delimited fields before the first space.  The result is
`(read_id, tile_id)`.  (Rust's `find` returns a byte index and the slice is
by bytes; since a UTF-8 space is a single byte on a character boundary, the
prefix before the first space equals the character-level `takeWhile`.) -/
def parseHeader (id : Line) : Option (Line × Line) :=
  if id.contains ' ' then
    match (splitOnChar ':' (id.takeWhile (fun c => !(c == ' ')))).get? 4 with
    | some tile_id => some (id.takeWhile (fun c => !(c == ' ')), tile_id)
    | none => none
  else
    none

/-- Outcome of one `read_entry` call: a parsed record (`true` in the source),
end of stream (`false`), or the header-format panic. -/
inductive ReadResult where
  | record (e : FastqEntry)
  | eof
  | fail
deriving DecidableEq

/-- The decision part of `read_entry`, applied after the four `read_line`
calls: end of stream iff the header buffer stayed empty, otherwise parse the
header (panicking on a malformed one). -/
def read_entry_result (id seq strand qual : Line) : ReadResult :=
  if id.isEmpty then ReadResult.eof
  else
    match parseHeader id with
    | some p => ReadResult.record ⟨id, seq, strand, qual, p.2, p.1⟩
    | none => ReadResult.fail

/-- `FastqHandler::read_entry` (lines 121-141): four `read_line` calls fill
`id`, `seq`, `strand`, `qual`, then the emptiness test on `id` alone decides
between a record and end of stream.  Returns the outcome and the rest of the
stream. -/
def read_entry (s : List Line) : ReadResult × List Line :=
  let (id, s1) := read_line s
  let (seq, s2) := read_line s1
  let (strand, s3) := read_line s2
  let (qual, s4) := read_line s3
  (read_entry_result id seq strand qual, s4)

/-- The configuration consumed by the core (`Cli`, lines 15-52), restricted to
the fields the checker reads: the length threshold, the literal tile-id
strings of `--remove_tiles`, the lines of the `--remove_reads` file when one
is configured (as produced by `BufRead::lines`, i.e. without trailing
newlines), and whether a `--stats_file` destination is configured. -/
structure Cli where
  len_threshold : Nat
  remove_tiles : List Line
  remove_reads : Option (List Line)
  stats_file : Bool
deriving DecidableEq

/-- `FastqPairChecker::build_rm_reads` (lines 232-241): for each line of the
exclusion file, insert `format!("@{}", line.split(" ").nth(0).unwrap())`, i.e.
`'@'` prepended to the piece of the line before its first space. -/
def build_rm_reads (file_lines : List Line) : List Line :=
  file_lines.map (fun l => '@' :: (splitOnChar ' ' l).headD [])

/-- The `rm_reads` set of the checker: built from the exclusion file when one
is configured (line 206), empty otherwise. -/
def rm_reads (cfg : Cli) : List Line :=
  match cfg.remove_reads with
  | some ls => build_rm_reads ls
  | none => []

/-- `FastqPairChecker::check_read` (lines 243-245): both stored sequence
buffers must have character count strictly greater than the threshold. -/
def check_read (cfg : Cli) (e1 e2 : FastqEntry) : Bool :=
  decide (cfg.len_threshold < e1.seq.length) && decide (cfg.len_threshold < e2.seq.length)

/-- `FastqPairChecker::tile_check_read` (lines 247-254): false iff mate-1's
`tile_id` is in the excluded tile set.  Mate-2 is ignored. -/
def tile_check_read (cfg : Cli) (e1 _e2 : FastqEntry) : Bool :=
  if cfg.remove_tiles.contains e1.tile_id then false else true

/-- `FastqPairChecker::id_check_read` (lines 256-263): false iff mate-1's
`read_id` is in the excluded read set.  Mate-2 is ignored. -/
def id_check_read (cfg : Cli) (e1 _e2 : FastqEntry) : Bool :=
  if (rm_reads cfg).contains e1.read_id then false else true

/-- The `criteria` vector built in `FastqPairChecker::new` (lines 197-210):
always `check_read`; then `tile_check_read` iff `--remove_tiles` is nonempty;
then `id_check_read` iff a `--remove_reads` file is configured. -/
def criteria (cfg : Cli) : List (FastqEntry → FastqEntry → Bool) :=
  [check_read cfg]
    ++ (if cfg.remove_tiles.isEmpty then [] else [tile_check_read cfg])
    ++ (match cfg.remove_reads with
        | some _ => [id_check_read cfg]
        | none => [])

/-- `FastqPairChecker::check_reads` (lines 265-273): start with `result =
true`, evaluate every criterion, set `result = false` on each failure; no
short-circuit. -/
def check_reads (cfg : Cli) (e1 e2 : FastqEntry) : Bool :=
  (criteria cfg).foldl (fun result f => if !(f e1 e2) then false else result) true

/-- The mutable state of `FastqPairChecker::run`: the two remaining input
streams, the three counters, and the lines so far appended to the kept sinks
(`o1`, `o2`, via `output_entry`) and the filtered sinks (`f1`, `f2`, via
`filter_entry`). -/
@[ext]
structure RunState where
  s1 : List Line
  s2 : List Line
  read_pairs_checked : Nat
  read_pairs_removed : Nat
  read_pairs_remaining : Nat
  o1 : List Line
  o2 : List Line
  f1 : List Line
  f2 : List Line
deriving DecidableEq

/-- Outcome of the main loop: normal termination, or abort by the
header-format panic inside a `read_entry` call. -/
inductive RunResult where
  | finished (st : RunState)
  | headerFail (st : RunState)
deriving DecidableEq

/-- The state carried inside a `RunResult`. -/
def resultState : RunResult → RunState
  | RunResult.finished st => st
  | RunResult.headerFail st => st

/-- The four lines `output_entry` / `filter_entry` (lines 143-155) write for
one record: `id`, `seq`, `strand`, `qual`, in that order, verbatim. -/
def entryLines (e : FastqEntry) : List Line :=
  [e.id, e.seq, e.strand, e.qual]

theorem read_entry_nil : read_entry [] = (ReadResult.eof, []) := rfl

theorem read_entry_cons4 (a b c d : Line) (t : List Line) :
    read_entry (a :: b :: c :: d :: t) = (read_entry_result a b c d, t) := rfl

theorem read_entry_snd (s : List Line) : (read_entry s).2 = s.tail.drop 3 := by
  rcases s with _ | ⟨a, _ | ⟨b, _ | ⟨c, _ | ⟨d, t⟩⟩⟩⟩ <;> rfl

theorem read_entry_record_length {s t : List Line} {e : FastqEntry}
    (h : read_entry s = (ReadResult.record e, t)) : t.length < s.length := by
  rcases s with _ | ⟨a, as⟩
  · rw [read_entry_nil] at h
    exact absurd (congrArg Prod.fst h) (by simp)
  · have h2 : t = as.drop 3 := by
      have h3 := congrArg Prod.snd h
      rw [read_entry_snd] at h3
      simpa using h3.symm
    subst h2
    simp only [List.length_cons, List.length_drop]
    omega

/-- The state update of the removal branch (lines 317-320): count the pair as
checked and removed, write both mates' raw lines to the filtered sinks, and
continue with the rest of both streams. -/
def removeUpdate (st : RunState) (s1p s2p : List Line) (e1 e2 : FastqEntry) : RunState :=
  ⟨s1p, s2p, st.read_pairs_checked + 1, st.read_pairs_removed + 1, st.read_pairs_remaining,
    st.o1, st.o2, st.f1 ++ entryLines e1, st.f2 ++ entryLines e2⟩

/-- The state update of the keep branch (lines 321-325): count the pair as
checked and remaining, write both mates' raw lines to the kept sinks, and
continue with the rest of both streams. -/
def keepUpdate (st : RunState) (s1p s2p : List Line) (e1 e2 : FastqEntry) : RunState :=
  ⟨s1p, s2p, st.read_pairs_checked + 1, st.read_pairs_removed, st.read_pairs_remaining + 1,
    st.o1 ++ entryLines e1, st.o2 ++ entryLines e2, st.f1, st.f2⟩

/-- The streams left in a state after one iteration's pair of `read_entry`
calls, counters and sinks unchanged. -/
def streamsUpdate (st : RunState) (s1p s2p : List Line) : RunState :=
  ⟨s1p, s2p, st.read_pairs_checked, st.read_pairs_removed, st.read_pairs_remaining,
    st.o1, st.o2, st.f1, st.f2⟩

set_option linter.unusedVariables false

/-- The loop body of `FastqPairChecker::run` (lines 311-330).  Each iteration
calls `read_entry` on mate-1 and then on mate-2 (the second call happens even
when the first returned `false`; a header panic in the first call happens
before the second call).  Both records present: count the pair, evaluate
`check_reads`, and append the pair's raw lines to the filtered sinks
(`!check_reads`) or the kept sinks; otherwise break. -/
def runLoop (cfg : Cli) (st : RunState) : RunResult :=
  match h1 : read_entry st.s1 with
  | (ReadResult.fail, s1p) => RunResult.headerFail (streamsUpdate st s1p st.s2)
  | (ReadResult.eof, s1p) =>
    match read_entry st.s2 with
    | (ReadResult.fail, s2p) => RunResult.headerFail (streamsUpdate st s1p s2p)
    | (_, s2p) => RunResult.finished (streamsUpdate st s1p s2p)
  | (ReadResult.record e1, s1p) =>
    match read_entry st.s2 with
    | (ReadResult.fail, s2p) => RunResult.headerFail (streamsUpdate st s1p s2p)
    | (ReadResult.eof, s2p) => RunResult.finished (streamsUpdate st s1p s2p)
    | (ReadResult.record e2, s2p) =>
      if !(check_reads cfg e1 e2) then
        runLoop cfg (removeUpdate st s1p s2p e1 e2)
      else
        runLoop cfg (keepUpdate st s1p s2p e1 e2)
termination_by st.s1.length
decreasing_by
  all_goals simp only [removeUpdate, keepUpdate]
  all_goals exact read_entry_record_length h1

/-- The state at the start of `run`: full streams, zero counters, empty sinks. -/
def initState (s1 s2 : List Line) : RunState :=
  ⟨s1, s2, 0, 0, 0, [], [], [], []⟩

/-- Outcome of `FastqPairChecker::write_stats_file` (lines 275-307): `ok` when
nothing is configured or the report is created and written, `err` when
`File::create(&file_path)?` fails (an `Err` return), `panicAbort` when the
subsequent `f.write(..).expect("Could not write stats file")` fails. -/
inductive StatsResult where
  | ok
  | err
  | panicAbort
deriving DecidableEq

/-- `write_stats_file` with the success of `File::create` and of the report
write supplied as oracles. -/
def write_stats_file (cfg : Cli) (createOk writeOk : Bool) : StatsResult :=
  if cfg.stats_file then
    if createOk then
      if writeOk then StatsResult.ok else StatsResult.panicAbort
    else StatsResult.err
  else StatsResult.ok

/-- Final outcome of `FastqPairChecker::run`: `Ok(())`, abort by a
header-format panic in the loop, or abort by the stats-write panic. -/
inductive FinalResult where
  | exitOk (st : RunState)
  | abortHeader (st : RunState)
  | abortStatsWrite (st : RunState)
deriving DecidableEq

/-- `FastqPairChecker::run` (lines 309-333): run the loop, then the statement
`self.write_stats_file();` — whose `Result` value is discarded (the statement
ends with a semicolon and `run` then returns `Ok(())`), so a `StatsResult.err`
from a failed `File::create` does not change the outcome; only the panic
inside `write_stats_file` aborts. -/
def run (cfg : Cli) (s1 s2 : List Line) (createOk writeOk : Bool) : FinalResult :=
  match runLoop cfg (initState s1 s2) with
  | RunResult.headerFail st => FinalResult.abortHeader st
  | RunResult.finished st =>
    match write_stats_file cfg createOk writeOk with
    | StatsResult.panicAbort => FinalResult.abortStatsWrite st
    | _ => FinalResult.exitOk st

/-- The four raw lines of one FASTQ record as they sit in an input stream. -/
structure RawRec where
  id : Line
  seq : Line
  strand : Line
  qual : Line
deriving DecidableEq

/-- The four stream lines of a record, in file order. -/
def recLines (r : RawRec) : List Line :=
  [r.id, r.seq, r.strand, r.qual]

/-- A stream holding the given records back to back, four lines each. -/
def streamOf (rs : List RawRec) : List Line :=
  (rs.map recLines).flatten

/-- A record `read_entry` parses successfully: nonempty header that contains a
space and has at least five colon-delimited fields before it. -/
def GoodRec (r : RawRec) : Prop :=
  r.id ≠ [] ∧ (parseHeader r.id).isSome

instance (r : RawRec) : Decidable (GoodRec r) := by
  unfold GoodRec
  infer_instance

/-- The `FastqEntry` that `read_entry` builds from a good record (junk derived
fields for a bad one). -/
def entryOf (r : RawRec) : FastqEntry :=
  match parseHeader r.id with
  | some p => ⟨r.id, r.seq, r.strand, r.qual, p.2, p.1⟩
  | none => ⟨r.id, r.seq, r.strand, r.qual, [], []⟩

/-- Whether the predicate chain accepts a pair of records. -/
def acceptPair (cfg : Cli) (p : RawRec × RawRec) : Bool :=
  check_reads cfg (entryOf p.1) (entryOf p.2)

theorem entryLines_entryOf (r : RawRec) : entryLines (entryOf r) = recLines r := by
  unfold entryOf entryLines recLines
  cases parseHeader r.id <;> rfl

theorem read_entry_good (r : RawRec) (t : List Line) (h : GoodRec r) :
    read_entry (recLines r ++ t) = (ReadResult.record (entryOf r), t) := by
  obtain ⟨hne, hsome⟩ := h
  obtain ⟨p, hp⟩ := Option.isSome_iff_exists.mp hsome
  simp only [recLines, List.cons_append, List.nil_append, read_entry_cons4,
    read_entry_result, List.isEmpty_iff, hne, if_false, hp, entryOf]

theorem read_entry_bad (r : RawRec) (t : List Line) (hne : r.id ≠ [])
    (hnone : parseHeader r.id = none) :
    read_entry (recLines r ++ t) = (ReadResult.fail, t) := by
  simp only [recLines, List.cons_append, List.nil_append, read_entry_cons4,
    read_entry_result, List.isEmpty_iff, hne, if_false, hnone]

theorem runLoop_fail1 (cfg : Cli) (st : RunState) (s1p : List Line)
    (h1 : read_entry st.s1 = (ReadResult.fail, s1p)) :
    runLoop cfg st = RunResult.headerFail (streamsUpdate st s1p st.s2) := by
  rw [runLoop, h1]

theorem runLoop_fail2 (cfg : Cli) (st : RunState) (r1 : ReadResult) (s1p s2p : List Line)
    (h1 : read_entry st.s1 = (r1, s1p)) (hr1 : r1 ≠ ReadResult.fail)
    (h2 : read_entry st.s2 = (ReadResult.fail, s2p)) :
    runLoop cfg st = RunResult.headerFail (streamsUpdate st s1p s2p) := by
  rw [runLoop, h1, h2]
  cases r1 <;> simp_all

theorem runLoop_finish1 (cfg : Cli) (st : RunState) (r2 : ReadResult) (s1p s2p : List Line)
    (h1 : read_entry st.s1 = (ReadResult.eof, s1p))
    (h2 : read_entry st.s2 = (r2, s2p)) (hr2 : r2 ≠ ReadResult.fail) :
    runLoop cfg st = RunResult.finished (streamsUpdate st s1p s2p) := by
  rw [runLoop, h1, h2]
  cases r2 <;> simp_all

theorem runLoop_finish2 (cfg : Cli) (st : RunState) (e1 : FastqEntry) (s1p s2p : List Line)
    (h1 : read_entry st.s1 = (ReadResult.record e1, s1p))
    (h2 : read_entry st.s2 = (ReadResult.eof, s2p)) :
    runLoop cfg st = RunResult.finished (streamsUpdate st s1p s2p) := by
  rw [runLoop, h1, h2]

theorem runLoop_pair (cfg : Cli) (st : RunState) (e1 e2 : FastqEntry) (s1p s2p : List Line)
    (h1 : read_entry st.s1 = (ReadResult.record e1, s1p))
    (h2 : read_entry st.s2 = (ReadResult.record e2, s2p)) :
    runLoop cfg st =
      if check_reads cfg e1 e2 then runLoop cfg (keepUpdate st s1p s2p e1 e2)
      else runLoop cfg (removeUpdate st s1p s2p e1 e2) := by
  rw [runLoop, h1, h2]
  cases h : check_reads cfg e1 e2 <;> simp [h]

theorem foldl_flag (e1 e2 : FastqEntry) (l : List (FastqEntry → FastqEntry → Bool)) (b : Bool) :
    l.foldl (fun result f => if !(f e1 e2) then false else result) b
      = (b && l.all (fun f => f e1 e2)) := by
  induction l generalizing b with
  | nil => simp
  | cons f fs ih =>
    rw [List.foldl_cons, ih]
    cases hf : f e1 e2 <;> cases b <;> simp [hf]

/-- The evaluate-all-then-AND policy: `check_reads` is true iff every rule in
the `criteria` chain is true. -/
theorem check_reads_eq_all (cfg : Cli) (e1 e2 : FastqEntry) :
    check_reads cfg e1 e2 = (criteria cfg).all (fun f => f e1 e2) := by
  rw [check_reads, foldl_flag]
  simp

/-- Unfolded form of the predicate chain: length rule, then the tile rule when
tile exclusion is configured, then the read-id rule when read exclusion is
configured. -/
theorem check_reads_spec (cfg : Cli) (e1 e2 : FastqEntry) :
    check_reads cfg e1 e2 =
      (check_read cfg e1 e2
        && (cfg.remove_tiles.isEmpty || tile_check_read cfg e1 e2)
        && (cfg.remove_reads.isNone || id_check_read cfg e1 e2)) := by
  rw [check_reads_eq_all]
  unfold criteria
  rcases hr : cfg.remove_reads with _ | L <;> cases ht : cfg.remove_tiles.isEmpty <;>
    simp [List.all_append, Bool.and_assoc]

theorem check_reads_length_rule (cfg : Cli) (e1 e2 : FastqEntry)
    (h : check_reads cfg e1 e2 = true) : check_read cfg e1 e2 = true := by
  rw [check_reads_spec] at h
  exact (Bool.and_elim_left (Bool.and_elim_left h))

/-- The pairs the chain accepts, in order. -/
def keptPairs (cfg : Cli) (ps : List (RawRec × RawRec)) : List (RawRec × RawRec) :=
  ps.filter (fun p => acceptPair cfg p)

/-- The pairs the chain rejects, in order. -/
def removedPairs (cfg : Cli) (ps : List (RawRec × RawRec)) : List (RawRec × RawRec) :=
  ps.filter (fun p => !(acceptPair cfg p))

/-- The state reached after routing every pair of `ps`: streams advanced to
the tails, counters incremented, accepted pairs' lines appended to the kept
sinks and rejected pairs' lines to the filtered sinks, in input order. -/
def routedState (cfg : Cli) (ps : List (RawRec × RawRec)) (t1 t2 : List Line)
    (st : RunState) : RunState :=
  ⟨t1, t2,
    st.read_pairs_checked + ps.length,
    st.read_pairs_removed + (removedPairs cfg ps).length,
    st.read_pairs_remaining + (keptPairs cfg ps).length,
    st.o1 ++ streamOf ((keptPairs cfg ps).map Prod.fst),
    st.o2 ++ streamOf ((keptPairs cfg ps).map Prod.snd),
    st.f1 ++ streamOf ((removedPairs cfg ps).map Prod.fst),
    st.f2 ++ streamOf ((removedPairs cfg ps).map Prod.snd)⟩

theorem streamOf_nil : streamOf [] = [] := rfl

theorem streamOf_cons (r : RawRec) (rs : List RawRec) :
    streamOf (r :: rs) = recLines r ++ streamOf rs := by
  simp [streamOf]

/-- Main loop characterization: on streams that start with the same number of
well-formed records on both sides, the loop routes those pairs and continues
on the tails with updated counters and sinks. -/
theorem runLoop_pairs (cfg : Cli) (ps : List (RawRec × RawRec)) (st : RunState)
    (t1 t2 : List Line)
    (hg : ∀ p ∈ ps, GoodRec p.1 ∧ GoodRec p.2)
    (hs1 : st.s1 = streamOf (ps.map Prod.fst) ++ t1)
    (hs2 : st.s2 = streamOf (ps.map Prod.snd) ++ t2) :
    runLoop cfg st = runLoop cfg (routedState cfg ps t1 t2 st) := by
  induction ps generalizing st with
  | nil =>
    have : routedState cfg [] t1 t2 st = st := by
      cases st
      simp_all [routedState, keptPairs, removedPairs, streamOf]
    rw [this]
  | cons p ps ih =>
    have hgp := hg p (List.mem_cons_self p ps)
    have h1 : read_entry st.s1 = (ReadResult.record (entryOf p.1), streamOf (ps.map Prod.fst) ++ t1) := by
      rw [hs1, List.map_cons, streamOf_cons, List.append_assoc]
      exact read_entry_good p.1 _ hgp.1
    have h2 : read_entry st.s2 = (ReadResult.record (entryOf p.2), streamOf (ps.map Prod.snd) ++ t2) := by
      rw [hs2, List.map_cons, streamOf_cons, List.append_assoc]
      exact read_entry_good p.2 _ hgp.2
    rw [runLoop_pair cfg st (entryOf p.1) (entryOf p.2) _ _ h1 h2]
    have hgtail : ∀ q ∈ ps, GoodRec q.1 ∧ GoodRec q.2 := by
      intro q hq
      exact hg q (List.mem_cons_of_mem p hq)
    cases hacc : acceptPair cfg p with
    | true =>
      rw [if_pos (by simpa [acceptPair] using hacc)]
      rw [ih (keepUpdate st _ _ (entryOf p.1) (entryOf p.2)) hgtail rfl rfl]
      congr 1
      ext <;>
        simp [routedState, keepUpdate, keptPairs, removedPairs, hacc,
          List.filter_cons, entryLines_entryOf, streamOf_cons] <;>
        omega
    | false =>
      rw [if_neg (by simp [acceptPair] at hacc; simp [hacc])]
      rw [ih (removeUpdate st _ _ (entryOf p.1) (entryOf p.2)) hgtail rfl rfl]
      congr 1
      ext <;>
        simp [routedState, removeUpdate, keptPairs, removedPairs, hacc,
          List.filter_cons, entryLines_entryOf, streamOf_cons] <;>
        omega

/-- The counter invariant of `RunStats`. -/
def counterInv (st : RunState) : Prop :=
  st.read_pairs_checked = st.read_pairs_removed + st.read_pairs_remaining

theorem counterInv_streamsUpdate (st : RunState) (a b : List Line) (h : counterInv st) :
    counterInv (streamsUpdate st a b) := h

theorem runLoop_inv (cfg : Cli) (st : RunState) (h : counterInv st) :
    counterInv (resultState (runLoop cfg st)) := by
  induction st using runLoop.induct cfg with
  | case1 st s1p h1 =>
    rw [runLoop_fail1 cfg st s1p h1]
    exact h
  | case2 st s1p h1 s2p h2 =>
    rw [runLoop_fail2 cfg st ReadResult.eof s1p s2p h1 (by simp) h2]
    exact h
  | case3 st s1p h1 r2 s2p hr2 h2 =>
    rw [runLoop_finish1 cfg st r2 s1p s2p h1 h2 (fun hc => hr2 hc)]
    exact h
  | case4 st e1 s1p h1 s2p h2 =>
    rw [runLoop_fail2 cfg st (ReadResult.record e1) s1p s2p h1 (by simp) h2]
    exact h
  | case5 st e1 s1p h1 s2p h2 =>
    rw [runLoop_finish2 cfg st e1 s1p s2p h1 h2]
    exact h
  | case6 st e1 s1p h1 e2 s2p h2 hc ih =>
    rw [runLoop_pair cfg st e1 e2 s1p s2p h1 h2, if_neg (by simpa using hc)]
    apply ih
    simp only [counterInv, removeUpdate] at h ⊢
    omega
  | case7 st e1 s1p h1 e2 s2p h2 hc ih =>
    rw [runLoop_pair cfg st e1 e2 s1p s2p h1 h2, if_pos (by simpa using hc)]
    apply ih
    simp only [counterInv, keepUpdate] at h ⊢
    omega

theorem runLoop_nil_nil (cfg : Cli) (st : RunState) (h1 : st.s1 = []) (h2 : st.s2 = []) :
    runLoop cfg st = RunResult.finished st := by
  have e1 : read_entry st.s1 = (ReadResult.eof, []) := by rw [h1]; rfl
  have e2 : read_entry st.s2 = (ReadResult.eof, []) := by rw [h2]; rfl
  rw [runLoop_finish1 cfg st ReadResult.eof [] [] e1 e2 (by simp)]
  congr 1
  cases st
  simp_all [streamsUpdate]

/-- A complete run on two streams holding the same number of well-formed
records: every pair is routed and the loop finishes with empty streams. -/
theorem runLoop_complete (cfg : Cli) (ps : List (RawRec × RawRec))
    (hg : ∀ p ∈ ps, GoodRec p.1 ∧ GoodRec p.2) :
    runLoop cfg (initState (streamOf (ps.map Prod.fst)) (streamOf (ps.map Prod.snd)))
      = RunResult.finished
          (routedState cfg ps [] []
            (initState (streamOf (ps.map Prod.fst)) (streamOf (ps.map Prod.snd)))) := by
  rw [runLoop_pairs cfg ps _ [] [] hg (by simp [initState]) (by simp [initState])]
  exact runLoop_nil_nil cfg _ rfl rfl

theorem recLines_length (r : RawRec) : (recLines r).length = 4 := rfl

theorem drop4_streamOf_cons (r : RawRec) (rs : List RawRec) :
    (streamOf (r :: rs)).drop 4 = streamOf rs := by
  rw [streamOf_cons]
  have h4 : (4 : Nat) = (recLines r).length := rfl
  rw [h4, List.drop_left]

/-- Truncation, mate-2 shorter: after routing `ps`, mate-1's next record (when
one exists) is still read and parsed, but the loop then breaks because mate-2
is exhausted; exactly one extra mate-1 record is consumed. -/
theorem runLoop_trunc1 (cfg : Cli) (ps : List (RawRec × RawRec)) (extra : List RawRec)
    (hg : ∀ p ∈ ps, GoodRec p.1 ∧ GoodRec p.2) (hx : ∀ r ∈ extra, GoodRec r) :
    runLoop cfg (initState (streamOf (ps.map Prod.fst) ++ streamOf extra)
        (streamOf (ps.map Prod.snd)))
      = RunResult.finished
          (streamsUpdate
            (routedState cfg ps (streamOf extra) []
              (initState (streamOf (ps.map Prod.fst) ++ streamOf extra)
                (streamOf (ps.map Prod.snd))))
            ((streamOf extra).drop 4) []) := by
  rw [runLoop_pairs cfg ps _ (streamOf extra) [] hg (by simp [initState]) (by simp [initState])]
  rcases extra with _ | ⟨x, xs⟩
  · rw [runLoop_nil_nil cfg _ rfl rfl]
    congr 1
  · have h1 : read_entry (routedState cfg ps (streamOf (x :: xs)) []
          (initState (streamOf (ps.map Prod.fst) ++ streamOf (x :: xs))
            (streamOf (ps.map Prod.snd)))).s1
        = (ReadResult.record (entryOf x), streamOf xs) := by
      show read_entry (streamOf (x :: xs)) = _
      rw [streamOf_cons]
      exact read_entry_good x _ (hx x (List.mem_cons_self x xs))
    have h2 : read_entry (routedState cfg ps (streamOf (x :: xs)) []
          (initState (streamOf (ps.map Prod.fst) ++ streamOf (x :: xs))
            (streamOf (ps.map Prod.snd)))).s2
        = (ReadResult.eof, []) := rfl
    rw [runLoop_finish2 cfg _ (entryOf x) (streamOf xs) [] h1 h2, drop4_streamOf_cons]

/-- Truncation, mate-1 shorter: mate-1's `read_entry` sees end of stream, the
second `read_entry` call still consumes and parses mate-2's next record (when
one exists), and the loop breaks. -/
theorem runLoop_trunc2 (cfg : Cli) (ps : List (RawRec × RawRec)) (extra : List RawRec)
    (hg : ∀ p ∈ ps, GoodRec p.1 ∧ GoodRec p.2) (hx : ∀ r ∈ extra, GoodRec r) :
    runLoop cfg (initState (streamOf (ps.map Prod.fst))
        (streamOf (ps.map Prod.snd) ++ streamOf extra))
      = RunResult.finished
          (streamsUpdate
            (routedState cfg ps [] (streamOf extra)
              (initState (streamOf (ps.map Prod.fst))
                (streamOf (ps.map Prod.snd) ++ streamOf extra)))
            [] ((streamOf extra).drop 4)) := by
  rw [runLoop_pairs cfg ps _ [] (streamOf extra) hg (by simp [initState]) (by simp [initState])]
  rcases extra with _ | ⟨x, xs⟩
  · rw [runLoop_nil_nil cfg _ rfl rfl]
    congr 1
  · have h1 : read_entry (routedState cfg ps [] (streamOf (x :: xs))
          (initState (streamOf (ps.map Prod.fst))
            (streamOf (ps.map Prod.snd) ++ streamOf (x :: xs)))).s1
        = (ReadResult.eof, []) := rfl
    have h2 : read_entry (routedState cfg ps [] (streamOf (x :: xs))
          (initState (streamOf (ps.map Prod.fst))
            (streamOf (ps.map Prod.snd) ++ streamOf (x :: xs)))).s2
        = (ReadResult.record (entryOf x), streamOf xs) := by
      show read_entry (streamOf (x :: xs)) = _
      rw [streamOf_cons]
      exact read_entry_good x _ (hx x (List.mem_cons_self x xs))
    rw [runLoop_finish1 cfg _ (ReadResult.record (entryOf x)) [] (streamOf xs) h1 h2 (by simp),
      drop4_streamOf_cons]

/-- Abort by a malformed header in the mate-1 stream right after the good
pairs `ps`: the bad record's four lines are consumed, mate-2's stream is not
touched in that iteration, and the routed sinks and counters stand. -/
theorem runLoop_abort1 (cfg : Cli) (ps : List (RawRec × RawRec)) (b : RawRec)
    (t1 t2 : List Line)
    (hg : ∀ p ∈ ps, GoodRec p.1 ∧ GoodRec p.2)
    (hb1 : b.id ≠ []) (hb2 : parseHeader b.id = none) :
    runLoop cfg (initState (streamOf (ps.map Prod.fst) ++ (recLines b ++ t1))
        (streamOf (ps.map Prod.snd) ++ t2))
      = RunResult.headerFail
          (streamsUpdate
            (routedState cfg ps (recLines b ++ t1) t2
              (initState (streamOf (ps.map Prod.fst) ++ (recLines b ++ t1))
                (streamOf (ps.map Prod.snd) ++ t2)))
            t1 t2) := by
  rw [runLoop_pairs cfg ps _ (recLines b ++ t1) t2 hg (by simp [initState]) (by simp [initState])]
  exact runLoop_fail1 cfg _ t1 (read_entry_bad b t1 hb1 hb2)

/-- Abort by a malformed header in the mate-2 stream right after the good
pairs `ps`, mate-1's counterpart record being well-formed: both streams are
advanced by one record, and the routed sinks and counters stand. -/
theorem runLoop_abort2 (cfg : Cli) (ps : List (RawRec × RawRec)) (a b : RawRec)
    (t1 t2 : List Line)
    (hg : ∀ p ∈ ps, GoodRec p.1 ∧ GoodRec p.2) (ha : GoodRec a)
    (hb1 : b.id ≠ []) (hb2 : parseHeader b.id = none) :
    runLoop cfg (initState (streamOf (ps.map Prod.fst) ++ (recLines a ++ t1))
        (streamOf (ps.map Prod.snd) ++ (recLines b ++ t2)))
      = RunResult.headerFail
          (streamsUpdate
            (routedState cfg ps (recLines a ++ t1) (recLines b ++ t2)
              (initState (streamOf (ps.map Prod.fst) ++ (recLines a ++ t1))
                (streamOf (ps.map Prod.snd) ++ (recLines b ++ t2))))
            t1 t2) := by
  rw [runLoop_pairs cfg ps _ (recLines a ++ t1) (recLines b ++ t2) hg
    (by simp [initState]) (by simp [initState])]
  exact runLoop_fail2 cfg _ (ReadResult.record (entryOf a)) t1 t2
    (read_entry_good a t1 ha) (by simp) (read_entry_bad b t2 hb1 hb2)

theorem splitOnChar_ne_nil (c : Char) (l : Line) : splitOnChar c l ≠ [] := by
  induction l with
  | nil => simp [splitOnChar]
  | cons x xs ih =>
    rw [splitOnChar]
    by_cases hx : x = c
    · simp [hx]
    · rw [if_neg hx]
      cases h : splitOnChar c xs <;> simp

/-- The first piece of `split(" ")` is the longest space-free prefix: the
"first space-delimited token" of the line. -/
theorem splitOnChar_headD_space (l : Line) :
    (splitOnChar ' ' l).headD [] = l.takeWhile (fun c => !(c == ' ')) := by
  induction l with
  | nil => simp [splitOnChar]
  | cons x xs ih =>
    rw [splitOnChar]
    by_cases hx : x = ' '
    · simp [hx, List.takeWhile]
    · rw [if_neg hx]
      have hne := splitOnChar_ne_nil ' ' xs
      rcases h : splitOnChar ' ' xs with _ | ⟨y, ys⟩
      · exact absurd h hne
      · have hy : xs.takeWhile (fun c => !(c == ' ')) = y := by
          have h2 := ih
          rw [h] at h2
          simpa using h2.symm
        have hb : (x == ' ') = false := by simp [hx]
        simp [List.takeWhile, hb, hy]

/-- A well-formed header line: contains a space, five colon-delimited fields
before it, trailing newline. -/
def hdr : Line := "@a:b:c:d:e x\n".toList

/-- A well-formed one-base record: sequence text A, stored as the line
containing A followed by the newline that `read_line` keeps. -/
def recA : RawRec := ⟨hdr, "A\n".toList, "+\n".toList, "I\n".toList⟩

/-- A record whose header is nonempty but has no space: `read_entry` panics
on it. -/
def badRec : RawRec := ⟨"@bad\n".toList, "AAAA\n".toList, "+\n".toList, "IIII\n".toList⟩

/-- Threshold 1, no exclusions, no stats destination. -/
def cfgLen1 : Cli := ⟨1, [], none, false⟩

/-- Claim C1: for every run of the main loop, after each processed pair and at
completion, `read_pairs_checked = read_pairs_removed + read_pairs_remaining`.
Stated as preservation from any state satisfying the invariant (the initial
state has all three counters 0, and every intermediate state of a run is the
start state of a recursive call, so this covers the state after each processed
pair, at completion, and at a header abort). -/
theorem claim_C1 (cfg : Cli) (st : RunState)
    (h : st.read_pairs_checked = st.read_pairs_removed + st.read_pairs_remaining) :
    (resultState (runLoop cfg st)).read_pairs_checked
      = (resultState (runLoop cfg st)).read_pairs_removed
        + (resultState (runLoop cfg st)).read_pairs_remaining :=
  runLoop_inv cfg st h

theorem claim_C1_witness :
    (resultState (runLoop cfgLen1 (initState (streamOf [recA]) (streamOf [recA])))).read_pairs_checked
      = (resultState (runLoop cfgLen1 (initState (streamOf [recA]) (streamOf [recA])))).read_pairs_removed
        + (resultState (runLoop cfgLen1 (initState (streamOf [recA]) (streamOf [recA])))).read_pairs_remaining :=
  claim_C1 cfgLen1 (initState (streamOf [recA]) (streamOf [recA])) rfl

/-- Claim C2, counterexample.  The claim says a mate whose sequence length
equals the threshold causes rejection.  Here both mates' sequence text is the
single character A (length 1) and the threshold is 1, yet the complete run
keeps the pair (`removed = 0`, `remaining = 1`): `check_read` counts the
characters of the stored line, which still carries the newline that Rust's
`read_line` keeps, so it compares 2 > 1. -/
theorem claim_C2_counterexample :
    recA.seq = ['A', '\n'] ∧ cfgLen1.len_threshold = 1
      ∧ runLoop cfgLen1 (initState (streamOf [recA]) (streamOf [recA]))
          = RunResult.finished ⟨[], [], 1, 0, 1, streamOf [recA], streamOf [recA], [], []⟩ := by
  refine ⟨by decide, by decide, ?_⟩
  have h : runLoop cfgLen1 (initState (streamOf [recA]) (streamOf [recA]))
      = RunResult.finished (routedState cfgLen1 [(recA, recA)] [] []
          (initState (streamOf [recA]) (streamOf [recA]))) :=
    runLoop_complete cfgLen1 [(recA, recA)] (by decide)
  rw [h]
  decide

/-- Claim C2 as amended: the length rule compares the character count of the
stored sequence line — which includes the trailing newline kept by
`read_line` — strictly against the threshold.  For newline-terminated
sequence lines this means the pair is accepted iff both sequence texts have
length at least the threshold: text length equal to the threshold is
accepted, not rejected; only text length strictly below the threshold causes
rejection. -/
theorem claim_C2 (cfg : Cli) (e1 e2 : FastqEntry) (u v : Line)
    (h1 : e1.seq = u ++ ['\n']) (h2 : e2.seq = v ++ ['\n']) :
    check_read cfg e1 e2
      = (decide (cfg.len_threshold ≤ u.length) && decide (cfg.len_threshold ≤ v.length)) := by
  have key : ∀ (t n : Nat), (decide (t < n + 1)) = (decide (t ≤ n)) :=
    fun t n => decide_eq_decide.mpr Nat.lt_succ_iff
  rw [check_read, h1, h2]
  simp [key]

theorem claim_C2_witness :
    check_read cfgLen1 (entryOf recA) (entryOf recA)
      = (decide (cfgLen1.len_threshold ≤ (['A'] : Line).length)
          && decide (cfgLen1.len_threshold ≤ (['A'] : Line).length)) :=
  claim_C2 cfgLen1 (entryOf recA) (entryOf recA) ['A'] ['A'] (by decide) (by decide)

theorem read_entry_result_eof (id a b c : Line) :
    read_entry_result id a b c = ReadResult.eof ↔ id = [] := by
  rcases id with _ | ⟨x, xs⟩
  · simp [read_entry_result]
  · cases hp : parseHeader (x :: xs) <;> simp [read_entry_result, hp]

/-- Claim C3, counterexample.  The claim says that if any of the four line
reads yields an empty result, `read_entry` returns no-more-records even when
an earlier line was non-empty.  On a stream holding exactly one line (a valid
header), the last three reads all yield empty results, yet `read_entry`
returns a record, not end-of-stream: only the emptiness of the first (header)
read is ever tested. -/
theorem claim_C3_counterexample :
    hdr ≠ [] ∧ (read_entry [hdr]).2 = [] ∧ (read_entry [hdr]).1 ≠ ReadResult.eof := by
  decide

/-- Claim C3 as amended: `read_entry` reports no-more-records iff the first of
the four reads (the header) yields an empty result; an empty result on any of
the later three reads does not cause no-more-records — on a one-line stream
with a parseable header it still returns a record whose remaining fields are
empty. -/
theorem claim_C3 :
    (∀ s : List Line, (read_entry s).1 = ReadResult.eof ↔ (read_line s).1 = [])
    ∧ (∀ h : Line, h ≠ [] → (parseHeader h).isSome = true →
        (read_entry [h]).1 = ReadResult.record (entryOf ⟨h, [], [], []⟩)) := by
  constructor
  · intro s
    rcases s with _ | ⟨l, ls⟩
    · simp [read_entry_nil, read_line]
    · have he : (read_entry (l :: ls)).1
          = read_entry_result l (read_line ls).1 (read_line (read_line ls).2).1
              (read_line (read_line (read_line ls).2).2).1 := rfl
      rw [he, read_entry_result_eof]
      simp [read_line]
  · intro h hne hsome
    obtain ⟨p, hp⟩ := Option.isSome_iff_exists.mp hsome
    have he : (read_entry [h]).1 = read_entry_result h [] [] [] := rfl
    rw [he]
    simp [read_entry_result, hne, hp, entryOf]

theorem claim_C3_witness :
    ((read_entry ([] : List Line)).1 = ReadResult.eof ↔ (read_line ([] : List Line)).1 = [])
    ∧ (read_entry [hdr]).1 = ReadResult.record (entryOf ⟨hdr, [], [], []⟩) :=
  ⟨claim_C3.1 [], claim_C3.2 hdr (by decide) (by decide)⟩

/-- Claim C4: the tile and read exclusion rules test only mate-1's
identifiers.  (a) mate-1's `tile_id` in the excluded tile set rejects the
pair; (b) mate-1's `read_id` in the excluded read set rejects the pair;
(c) when mate-1 passes the length rule and is in neither exclusion set the
pair is accepted, whatever mate-2's `tile_id` and `read_id` are (`e2` is
arbitrary, so in particular mate-2's identifiers may lie in the exclusion
sets without causing rejection). -/
theorem claim_C4 (cfg : Cli) (e1 e2 : FastqEntry) :
    (cfg.remove_tiles.contains e1.tile_id = true → check_reads cfg e1 e2 = false)
    ∧ (∀ L, cfg.remove_reads = some L → (build_rm_reads L).contains e1.read_id = true →
        check_reads cfg e1 e2 = false)
    ∧ (check_read cfg e1 e2 = true → cfg.remove_tiles.contains e1.tile_id = false →
        (rm_reads cfg).contains e1.read_id = false → check_reads cfg e1 e2 = true) := by
  refine ⟨?_, ?_, ?_⟩
  · intro h
    have hne : cfg.remove_tiles.isEmpty = false := by
      cases ht : cfg.remove_tiles with
      | nil => rw [ht] at h; simp [List.contains] at h
      | cons a as => rfl
    have h1 : tile_check_read cfg e1 e2 = false := by
      simp only [tile_check_read, if_pos h]
    rw [check_reads_spec, h1, hne]
    simp
  · intro L hL h
    have h1 : id_check_read cfg e1 e2 = false := by
      have hm : (rm_reads cfg).contains e1.read_id = true := by rw [rm_reads, hL]; exact h
      simp only [id_check_read, if_pos hm]
    have h2 : cfg.remove_reads.isNone = false := by simp [hL]
    rw [check_reads_spec, h1, h2]
    simp
  · intro hcr htile hid
    have h1 : tile_check_read cfg e1 e2 = true := by
      simp only [tile_check_read, htile]
      simp
    have h2 : id_check_read cfg e1 e2 = true := by
      simp only [id_check_read, hid]
      simp
    rw [check_reads_spec, hcr, h1, h2]
    simp

/-- Config for the exclusion-rule witness: threshold 0, one excluded tile,
one excluded-read file line. -/
def cfgC4 : Cli := ⟨0, ["1101".toList], some ["r1:2:3:4:5 extra".toList], false⟩

/-- Mate-1 entry sitting on the excluded tile. -/
def entTile : FastqEntry :=
  ⟨"@h 1\n".toList, "AC\n".toList, "+\n".toList, "II\n".toList, "1101".toList, "@x".toList⟩

/-- Mate-1 entry with the excluded read id. -/
def entRead : FastqEntry :=
  ⟨"@h 1\n".toList, "AC\n".toList, "+\n".toList, "II\n".toList, "9999".toList,
    "@r1:2:3:4:5".toList⟩

/-- Mate-1 entry excluded by neither rule. -/
def entOk : FastqEntry :=
  ⟨"@h 1\n".toList, "AC\n".toList, "+\n".toList, "II\n".toList, "9999".toList, "@ok".toList⟩

/-- A well-formed record whose sequence line is just the newline: rejected by
the length rule at any positive threshold. -/
def recShort : RawRec := ⟨hdr, "\n".toList, "+\n".toList, "I\n".toList⟩

/-- Mate-2 entry whose tile AND read id are both in the exclusion sets. -/
def entBoth2 : FastqEntry :=
  ⟨"@h 2\n".toList, "AC\n".toList, "+\n".toList, "II\n".toList, "1101".toList,
    "@r1:2:3:4:5".toList⟩

theorem claim_C4_witness :
    check_reads cfgC4 entTile entOk = false
    ∧ check_reads cfgC4 entRead entOk = false
    ∧ check_reads cfgC4 entOk entBoth2 = true :=
  ⟨(claim_C4 cfgC4 entTile entOk).1 (by decide),
   (claim_C4 cfgC4 entRead entOk).2.1 ["r1:2:3:4:5 extra".toList] rfl (by decide),
   (claim_C4 cfgC4 entOk entBoth2).2.2 (by decide) (by decide) (by decide)⟩

/-- Claim C5, counterexample.  The claim says that with 3 mate-1 records and
2 mate-2 records the run completes with `checked = 2` and never reads mate-1's
3rd record.  Here mate-1's 3rd record has a malformed header; the run does not
complete — it aborts with the header-format panic after routing the first two
pairs — because the loop's third iteration still reads and parses mate-1's 3rd
record before testing mate-2 for end of stream. -/
theorem claim_C5_counterexample :
    runLoop cfgLen1 (initState (streamOf [recA, recA, badRec]) (streamOf [recA, recA]))
      = RunResult.headerFail
          ⟨[], [], 2, 0, 2, streamOf [recA, recA], streamOf [recA, recA], [], []⟩ := by
  have h : runLoop cfgLen1 (initState (streamOf [recA, recA, badRec]) (streamOf [recA, recA]))
      = RunResult.headerFail
          (streamsUpdate
            (routedState cfgLen1 [(recA, recA), (recA, recA)] (recLines badRec ++ []) []
              (initState (streamOf [recA, recA, badRec]) (streamOf [recA, recA])))
            [] []) :=
    runLoop_abort1 cfgLen1 [(recA, recA), (recA, recA)] badRec [] [] (by decide) (by decide)
      (by decide)
  rw [h]
  decide

/-- Claim C5 as amended: with both streams made of well-formed records, the
loop finishes and processes exactly `min(n1, n2)` pairs; when one stream has
more records than the other, the first surplus record of the longer stream is
nonetheless read — its four lines are consumed and its header is parsed (so a
malformed header there still aborts the run, as the counterexample shows) —
but it is not routed to any sink, and later surplus records are not read. -/
theorem claim_C5 (cfg : Cli) (ps : List (RawRec × RawRec)) (extra : List RawRec)
    (hg : ∀ p ∈ ps, GoodRec p.1 ∧ GoodRec p.2) (hx : ∀ r ∈ extra, GoodRec r) :
    (∃ st, runLoop cfg (initState (streamOf (ps.map Prod.fst) ++ streamOf extra)
          (streamOf (ps.map Prod.snd))) = RunResult.finished st
        ∧ st.read_pairs_checked = min (ps.length + extra.length) ps.length
        ∧ st.s1 = (streamOf extra).drop 4 ∧ st.s2 = [])
    ∧ (∃ st, runLoop cfg (initState (streamOf (ps.map Prod.fst))
          (streamOf (ps.map Prod.snd) ++ streamOf extra)) = RunResult.finished st
        ∧ st.read_pairs_checked = min ps.length (ps.length + extra.length)
        ∧ st.s1 = [] ∧ st.s2 = (streamOf extra).drop 4) := by
  constructor
  · refine ⟨_, runLoop_trunc1 cfg ps extra hg hx, ?_, rfl, rfl⟩
    simp [streamsUpdate, routedState, initState]
  · refine ⟨_, runLoop_trunc2 cfg ps extra hg hx, ?_, rfl, rfl⟩
    simp [streamsUpdate, routedState, initState]

theorem claim_C5_witness :
    (∃ st, runLoop cfgLen1
          (initState (streamOf ([(recA, recA), (recA, recA)].map Prod.fst) ++ streamOf [recA])
            (streamOf ([(recA, recA), (recA, recA)].map Prod.snd)))
        = RunResult.finished st
        ∧ st.read_pairs_checked
            = min ([(recA, recA), (recA, recA)].length + [recA].length)
                [(recA, recA), (recA, recA)].length
        ∧ st.s1 = (streamOf [recA]).drop 4 ∧ st.s2 = [])
    ∧ (∃ st, runLoop cfgLen1
          (initState (streamOf ([(recA, recA), (recA, recA)].map Prod.fst))
            (streamOf ([(recA, recA), (recA, recA)].map Prod.snd) ++ streamOf [recA]))
        = RunResult.finished st
        ∧ st.read_pairs_checked
            = min [(recA, recA), (recA, recA)].length
                ([(recA, recA), (recA, recA)].length + [recA].length)
        ∧ st.s1 = [] ∧ st.s2 = (streamOf [recA]).drop 4) :=
  claim_C5 cfgLen1 [(recA, recA), (recA, recA)] [recA] (by decide) (by decide)

/-- Claim C6: on streams of equally many well-formed records, the loop
finishes with every processed pair routed to exactly one destination: the
kept sinks hold precisely the four raw lines of each accepted pair's mates
and the filtered sinks precisely those of each rejected pair's mates, byte
for byte, in input order (`keptPairs`/`removedPairs` partition the pairs by
the predicate chain's verdict), with no record duplicated or dropped. -/
theorem claim_C6 (cfg : Cli) (ps : List (RawRec × RawRec))
    (hg : ∀ p ∈ ps, GoodRec p.1 ∧ GoodRec p.2) :
    ∃ st, runLoop cfg (initState (streamOf (ps.map Prod.fst)) (streamOf (ps.map Prod.snd)))
        = RunResult.finished st
      ∧ st.o1 = streamOf ((keptPairs cfg ps).map Prod.fst)
      ∧ st.o2 = streamOf ((keptPairs cfg ps).map Prod.snd)
      ∧ st.f1 = streamOf ((removedPairs cfg ps).map Prod.fst)
      ∧ st.f2 = streamOf ((removedPairs cfg ps).map Prod.snd)
      ∧ st.read_pairs_checked = ps.length := by
  refine ⟨_, runLoop_complete cfg ps hg, ?_, ?_, ?_, ?_, ?_⟩ <;>
    simp [routedState, initState]

theorem claim_C6_witness :
    ∃ st, runLoop cfgLen1
        (initState (streamOf ([(recA, recA), (recShort, recShort)].map Prod.fst))
          (streamOf ([(recA, recA), (recShort, recShort)].map Prod.snd)))
        = RunResult.finished st
      ∧ st.o1 = streamOf ((keptPairs cfgLen1 [(recA, recA), (recShort, recShort)]).map Prod.fst)
      ∧ st.o2 = streamOf ((keptPairs cfgLen1 [(recA, recA), (recShort, recShort)]).map Prod.snd)
      ∧ st.f1 = streamOf ((removedPairs cfgLen1 [(recA, recA), (recShort, recShort)]).map Prod.fst)
      ∧ st.f2 = streamOf ((removedPairs cfgLen1 [(recA, recA), (recShort, recShort)]).map Prod.snd)
      ∧ st.read_pairs_checked = [(recA, recA), (recShort, recShort)].length :=
  claim_C6 cfgLen1 [(recA, recA), (recShort, recShort)] (by decide)

theorem parseHeader_eq_none_iff (id : Line) :
    parseHeader id = none
      ↔ (id.contains ' ' = false
          ∨ (splitOnChar ':' (id.takeWhile (fun c => !(c == ' ')))).length < 5) := by
  unfold parseHeader
  cases hc : id.contains ' ' with
  | false => simp [hc]
  | true =>
    cases hg : (splitOnChar ':' (id.takeWhile (fun c => !(c == ' ')))).get? 4 with
    | none =>
      have hlen := List.get?_eq_none.mp hg
      simp [hc, hg]
      omega
    | some t =>
      have hlt : 4 < (splitOnChar ':' (id.takeWhile (fun c => !(c == ' ')))).length := by
        by_contra hle
        rw [List.get?_eq_none.mpr (by omega)] at hg
        exact Option.noConfusion hg
      simp [hc, hg]
      omega

/-- Claim C7: a record whose header line is non-empty but lacks a space, or
has fewer than five colon-delimited fields before the first space, is a fatal
header-format panic.  First conjunct: those are exactly the headers
`parseHeader` refuses.  Second and third conjuncts: whichever mate stream
holds such a record, the run aborts at that record — after routing exactly
the preceding pairs — and the kept and filtered sinks retain exactly the
pairs already routed. -/
theorem claim_C7 :
    (∀ id : Line, parseHeader id = none
        ↔ (id.contains ' ' = false
            ∨ (splitOnChar ':' (id.takeWhile (fun c => !(c == ' ')))).length < 5))
    ∧ (∀ (cfg : Cli) (ps : List (RawRec × RawRec)) (b : RawRec) (t1 t2 : List Line),
        (∀ p ∈ ps, GoodRec p.1 ∧ GoodRec p.2) → b.id ≠ [] → parseHeader b.id = none →
        ∃ st, runLoop cfg (initState (streamOf (ps.map Prod.fst) ++ (recLines b ++ t1))
              (streamOf (ps.map Prod.snd) ++ t2)) = RunResult.headerFail st
          ∧ st.read_pairs_checked = ps.length
          ∧ st.o1 = streamOf ((keptPairs cfg ps).map Prod.fst)
          ∧ st.o2 = streamOf ((keptPairs cfg ps).map Prod.snd)
          ∧ st.f1 = streamOf ((removedPairs cfg ps).map Prod.fst)
          ∧ st.f2 = streamOf ((removedPairs cfg ps).map Prod.snd))
    ∧ (∀ (cfg : Cli) (ps : List (RawRec × RawRec)) (a b : RawRec) (t1 t2 : List Line),
        (∀ p ∈ ps, GoodRec p.1 ∧ GoodRec p.2) → GoodRec a → b.id ≠ [] →
        parseHeader b.id = none →
        ∃ st, runLoop cfg (initState (streamOf (ps.map Prod.fst) ++ (recLines a ++ t1))
              (streamOf (ps.map Prod.snd) ++ (recLines b ++ t2))) = RunResult.headerFail st
          ∧ st.read_pairs_checked = ps.length
          ∧ st.o1 = streamOf ((keptPairs cfg ps).map Prod.fst)
          ∧ st.o2 = streamOf ((keptPairs cfg ps).map Prod.snd)
          ∧ st.f1 = streamOf ((removedPairs cfg ps).map Prod.fst)
          ∧ st.f2 = streamOf ((removedPairs cfg ps).map Prod.snd)) := by
  refine ⟨parseHeader_eq_none_iff, ?_, ?_⟩
  · intro cfg ps b t1 t2 hg hb1 hb2
    refine ⟨_, runLoop_abort1 cfg ps b t1 t2 hg hb1 hb2, ?_, ?_, ?_, ?_, ?_⟩ <;>
      simp [streamsUpdate, routedState, initState]
  · intro cfg ps a b t1 t2 hg ha hb1 hb2
    refine ⟨_, runLoop_abort2 cfg ps a b t1 t2 hg ha hb1 hb2, ?_, ?_, ?_, ?_, ?_⟩ <;>
      simp [streamsUpdate, routedState, initState]

theorem claim_C7_witness :
    (parseHeader badRec.id = none
        ↔ (badRec.id.contains ' ' = false
            ∨ (splitOnChar ':' (badRec.id.takeWhile (fun c => !(c == ' ')))).length < 5))
    ∧ (∃ st, runLoop cfgLen1
          (initState (streamOf ([(recA, recA)].map Prod.fst) ++ (recLines badRec ++ []))
            (streamOf ([(recA, recA)].map Prod.snd) ++ []))
        = RunResult.headerFail st
        ∧ st.read_pairs_checked = [(recA, recA)].length
        ∧ st.o1 = streamOf ((keptPairs cfgLen1 [(recA, recA)]).map Prod.fst)
        ∧ st.o2 = streamOf ((keptPairs cfgLen1 [(recA, recA)]).map Prod.snd)
        ∧ st.f1 = streamOf ((removedPairs cfgLen1 [(recA, recA)]).map Prod.fst)
        ∧ st.f2 = streamOf ((removedPairs cfgLen1 [(recA, recA)]).map Prod.snd))
    ∧ (∃ st, runLoop cfgLen1
          (initState (streamOf ([(recA, recA)].map Prod.fst) ++ (recLines recA ++ []))
            (streamOf ([(recA, recA)].map Prod.snd) ++ (recLines badRec ++ [])))
        = RunResult.headerFail st
        ∧ st.read_pairs_checked = [(recA, recA)].length
        ∧ st.o1 = streamOf ((keptPairs cfgLen1 [(recA, recA)]).map Prod.fst)
        ∧ st.o2 = streamOf ((keptPairs cfgLen1 [(recA, recA)]).map Prod.snd)
        ∧ st.f1 = streamOf ((removedPairs cfgLen1 [(recA, recA)]).map Prod.fst)
        ∧ st.f2 = streamOf ((removedPairs cfgLen1 [(recA, recA)]).map Prod.snd)) :=
  ⟨claim_C7.1 badRec.id,
   claim_C7.2.1 cfgLen1 [(recA, recA)] badRec [] [] (by decide) (by decide) (by decide),
   claim_C7.2.2 cfgLen1 [(recA, recA)] recA badRec [] [] (by decide) (by decide) (by decide)
     (by decide)⟩

/-- Threshold 1, no exclusions, a stats destination configured. -/
def cfgStats : Cli := ⟨1, [], none, true⟩

/-- Claim C8, counterexample.  The claim says a failure creating the report
file aborts the run with a stats-write error, surfaced and not silently
discarded.  With a stats destination configured and `File::create` failing
(`createOk = false`), the run still returns success: the statement
`self.write_stats_file();` in `run` drops the returned `Result`, so the
`Err` from the failed create is silently discarded and `run` ends with
`Ok(())`. -/
theorem claim_C8_counterexample :
    cfgStats.stats_file = true
      ∧ run cfgStats [] [] false true = FinalResult.exitOk (initState [] []) := by
  refine ⟨rfl, ?_⟩
  unfold run
  rw [runLoop_nil_nil cfgStats (initState [] []) rfl rfl]
  decide

/-- Claim C8 as amended: after the loop finishes, a failure creating the
report file is silently discarded — the run still exits successfully — while
a failure writing to the successfully created file panics and aborts the run;
in every case the counters of the finished loop state stand unchanged in
memory (the result carries the loop's final state). -/
theorem claim_C8 (cfg : Cli) (s1 s2 : List Line) (st : RunState) (w : Bool)
    (hloop : runLoop cfg (initState s1 s2) = RunResult.finished st) :
    run cfg s1 s2 false w = FinalResult.exitOk st
    ∧ (cfg.stats_file = true → run cfg s1 s2 true false = FinalResult.abortStatsWrite st)
    ∧ run cfg s1 s2 true true = FinalResult.exitOk st := by
  unfold run
  rw [hloop]
  refine ⟨?_, ?_, ?_⟩
  · unfold write_stats_file
    cases h : cfg.stats_file <;> simp [h]
  · intro h
    simp [write_stats_file, h]
  · unfold write_stats_file
    cases h : cfg.stats_file <;> simp [h]

theorem claim_C8_witness :
    run cfgStats [] [] false false = FinalResult.exitOk (initState [] [])
    ∧ (cfgStats.stats_file = true
        → run cfgStats [] [] true false = FinalResult.abortStatsWrite (initState [] []))
    ∧ run cfgStats [] [] true true = FinalResult.exitOk (initState [] []) :=
  claim_C8 cfgStats [] [] (initState [] []) false
    (runLoop_nil_nil cfgStats (initState [] []) rfl rfl)

/-- Claim C9: re-running the filter on its own kept output with the same
threshold and no exclusion sets removes nothing.  Run 1 uses an arbitrary
configuration `cfg`; its kept sinks hold exactly the lines of
`keptPairs cfg ps`.  Run 2 takes those sinks as its two input streams, keeps
`cfg`'s threshold, and configures no tile or read exclusions: every pair is
accepted again (`removed = 0`, `remaining` = number of kept pairs) and the
second run's kept output equals its input. -/
theorem claim_C9 (cfg : Cli) (sf : Bool) (ps : List (RawRec × RawRec))
    (hg : ∀ p ∈ ps, GoodRec p.1 ∧ GoodRec p.2) :
    ∃ st, runLoop ⟨cfg.len_threshold, [], none, sf⟩
        (initState (streamOf ((keptPairs cfg ps).map Prod.fst))
          (streamOf ((keptPairs cfg ps).map Prod.snd)))
      = RunResult.finished st
      ∧ st.read_pairs_removed = 0
      ∧ st.read_pairs_remaining = (keptPairs cfg ps).length
      ∧ st.o1 = streamOf ((keptPairs cfg ps).map Prod.fst)
      ∧ st.o2 = streamOf ((keptPairs cfg ps).map Prod.snd) := by
  have hgood2 : ∀ p ∈ keptPairs cfg ps, GoodRec p.1 ∧ GoodRec p.2 := by
    intro p hp
    exact hg p (List.mem_of_mem_filter hp)
  have haccept : ∀ p ∈ keptPairs cfg ps,
      acceptPair ⟨cfg.len_threshold, [], none, sf⟩ p = true := by
    intro p hp
    have h1 : acceptPair cfg p = true := by
      have := (List.mem_filter.mp hp).2
      simpa using this
    have h2 : check_read cfg (entryOf p.1) (entryOf p.2) = true :=
      check_reads_length_rule cfg _ _ h1
    have h3 : check_reads ⟨cfg.len_threshold, [], none, sf⟩ (entryOf p.1) (entryOf p.2)
        = check_read ⟨cfg.len_threshold, [], none, sf⟩ (entryOf p.1) (entryOf p.2) := by
      rw [check_reads_spec]
      simp
    have h4 : check_read ⟨cfg.len_threshold, [], none, sf⟩ (entryOf p.1) (entryOf p.2)
        = check_read cfg (entryOf p.1) (entryOf p.2) := by
      simp [check_read]
    unfold acceptPair
    rw [h3, h4, h2]
  have hkept : keptPairs ⟨cfg.len_threshold, [], none, sf⟩ (keptPairs cfg ps)
      = keptPairs cfg ps := by
    unfold keptPairs
    rw [List.filter_eq_self]
    intro p hp
    simpa using haccept p hp
  have hrem : removedPairs ⟨cfg.len_threshold, [], none, sf⟩ (keptPairs cfg ps) = [] := by
    unfold removedPairs
    rw [List.filter_eq_nil_iff]
    intro p hp
    simp [haccept p hp]
  refine ⟨_, runLoop_complete ⟨cfg.len_threshold, [], none, sf⟩ (keptPairs cfg ps) hgood2,
    ?_, ?_, ?_, ?_⟩ <;>
    simp [routedState, initState, hkept, hrem]

theorem claim_C9_witness :
    ∃ st, runLoop ⟨cfgLen1.len_threshold, [], none, false⟩
        (initState (streamOf ((keptPairs cfgLen1 [(recA, recA), (recShort, recShort)]).map Prod.fst))
          (streamOf ((keptPairs cfgLen1 [(recA, recA), (recShort, recShort)]).map Prod.snd)))
      = RunResult.finished st
      ∧ st.read_pairs_removed = 0
      ∧ st.read_pairs_remaining = (keptPairs cfgLen1 [(recA, recA), (recShort, recShort)]).length
      ∧ st.o1 = streamOf ((keptPairs cfgLen1 [(recA, recA), (recShort, recShort)]).map Prod.fst)
      ∧ st.o2 = streamOf ((keptPairs cfgLen1 [(recA, recA), (recShort, recShort)]).map Prod.snd) :=
  claim_C9 cfgLen1 false [(recA, recA), (recShort, recShort)] (by decide)

theorem takeWhile_space_cons (a : Char) (l2 : Line) (h : (!(a == ' ')) = true) :
    (a :: l2).takeWhile (fun c2 => !(c2 == ' ')) = a :: l2.takeWhile (fun c2 => !(c2 == ' ')) :=
  List.takeWhile_cons_of_pos h

theorem takeWhile_space_cons_neg (a : Char) (l2 : Line) (h : (!(a == ' ')) = false) :
    (a :: l2).takeWhile (fun c2 => !(c2 == ' ')) = [] :=
  List.takeWhile_cons_of_neg (by simp [h])

theorem stored_take2 (l : Line) (hl : l.head? = some '@') :
    ('@' :: (splitOnChar ' ' l).headD []).take 2 = ['@', '@'] := by
  rcases l with _ | ⟨x, xs⟩
  · exact absurd hl (by simp)
  · have hx : x = '@' := by simpa using hl
    subst hx
    rw [splitOnChar, if_neg (by decide)]
    rcases h : splitOnChar ' ' xs with _ | ⟨y, ys⟩
    · exact absurd h (splitOnChar_ne_nil ' ' xs)
    · simp

theorem stored_ne (l rid : Line) (hl : l.head? = some '@')
    (hrid : rid.take 2 ≠ ['@', '@']) :
    '@' :: (splitOnChar ' ' l).headD [] ≠ rid :=
  fun he => hrid (he ▸ stored_take2 l hl)

theorem parseHeader_fst {id : Line} {p : Line × Line} (hp : parseHeader id = some p) :
    p.1 = id.takeWhile (fun c => !(c == ' ')) := by
  unfold parseHeader at hp
  cases hc : id.contains ' ' with
  | false => rw [hc] at hp; simp at hp
  | true =>
    rw [hc] at hp
    cases hg : (splitOnChar ':' (id.takeWhile (fun c => !(c == ' ')))).get? 4 with
    | none => rw [hg] at hp; simp at hp
    | some t =>
      rw [hg] at hp
      simp only [if_true] at hp
      exact (congrArg Prod.fst (Option.some.inj hp)).symm

/-- Claim C10: how the read-exclusion file's entries relate to derived read
ids.  (a) the stored identifier is exactly the sigil prepended to the line's
first space-delimited token; (b) membership in the built set is exactly that
shape; (c) a line that already begins with the sigil is stored starting with
a double sigil; (d) such a stored entry can never equal any identifier that
does not start with a double sigil; (e) in particular it can never equal the
read id `read_entry` derives from a header carrying exactly one leading
sigil, while a sigil-less line's stored form is byte-for-byte the
sigil-prefixed token, so it matches such a derived read id exactly when the
bytes agree. -/
theorem claim_C10 :
    (∀ l : Line, '@' :: (splitOnChar ' ' l).headD []
        = '@' :: l.takeWhile (fun c => !(c == ' ')))
    ∧ (∀ (L : List Line) (l : Line), l ∈ L →
        ('@' :: l.takeWhile (fun c => !(c == ' '))) ∈ build_rm_reads L)
    ∧ (∀ l : Line, l.head? = some '@' →
        ('@' :: (splitOnChar ' ' l).headD []).take 2 = ['@', '@'])
    ∧ (∀ (l rid : Line), l.head? = some '@' → rid.take 2 ≠ ['@', '@'] →
        '@' :: (splitOnChar ' ' l).headD [] ≠ rid)
    ∧ (∀ (r : RawRec) (c : Char) (rest : Line) (l : Line),
        r.id = '@' :: c :: rest → c ≠ '@' → l.head? = some '@' →
        '@' :: (splitOnChar ' ' l).headD [] ≠ (entryOf r).read_id) := by
  refine ⟨?_, ?_, stored_take2, stored_ne, ?_⟩
  · intro l
    rw [splitOnChar_headD_space]
  · intro L l hl
    have : ('@' :: l.takeWhile (fun c => !(c == ' ')))
        = '@' :: (splitOnChar ' ' l).headD [] := by rw [splitOnChar_headD_space]
    rw [this, build_rm_reads]
    exact List.mem_map_of_mem _ hl
  · intro r c rest l hid hc hl
    cases hp : parseHeader r.id with
    | none =>
      have hrid : (entryOf r).read_id = [] := by simp [entryOf, hp]
      rw [hrid]
      simp
    | some p =>
      have hrid : (entryOf r).read_id = p.1 := by simp [entryOf, hp]
      rw [hrid, parseHeader_fst hp, hid, takeWhile_space_cons '@' (c :: rest) (by decide)]
      apply stored_ne l _ hl
      rcases hcs : (c :: rest).takeWhile (fun c2 => !(c2 == ' ')) with _ | ⟨z, zs⟩
      · simp
      · have hz : z = c := by
          by_cases hfc : (!(c == ' ')) = true
          · rw [takeWhile_space_cons c rest hfc] at hcs
            exact ((List.cons.injEq z zs c _).mp hcs.symm).1
          · rw [takeWhile_space_cons_neg c rest (by simpa using hfc)] at hcs
            exact absurd hcs.symm (List.cons_ne_nil z zs)
        subst hz
        simp [List.take, hc, Ne.symm hc]

theorem claim_C10_witness :
    ('@' :: (splitOnChar ' ' "@x y".toList).headD []
        = '@' :: ("@x y".toList.takeWhile (fun c => !(c == ' '))))
    ∧ (('@' :: ("ab c".toList.takeWhile (fun c => !(c == ' '))))
        ∈ build_rm_reads ["ab c".toList])
    ∧ (('@' :: (splitOnChar ' ' "@x y".toList).headD []).take 2 = ['@', '@'])
    ∧ ('@' :: (splitOnChar ' ' "@x".toList).headD [] ≠ "@r".toList)
    ∧ ('@' :: (splitOnChar ' ' "@q".toList).headD [] ≠ (entryOf recA).read_id) :=
  ⟨claim_C10.1 "@x y".toList,
   claim_C10.2.1 ["ab c".toList] "ab c".toList (by decide),
   claim_C10.2.2.1 "@x y".toList (by decide),
   claim_C10.2.2.2.1 "@x".toList "@r".toList (by decide) (by decide),
   claim_C10.2.2.2.2 recA 'a' ":b:c:d:e x\n".toList "@q".toList (by decide) (by decide)
     (by decide)⟩
